import Mathlib

/-!
Verification of the `db_service` detection store (src/db_service/main.py and
src/db_service/models.py): a shallow embedding of the pydantic data model,
the JSON column encoding, and the three HTTP handlers
(`create_detection`, `get_detections`, `update_gemini_analysis`).

Floats carry through the store without arithmetic, so they are modelled as
rationals; machine representation never matters for these properties.
Persistence failures of the underlying session are modelled by an explicit
`Except String Unit` oracle passed to each handler: `.ok ()` is a commit or
query that succeeds, `.error msg` one that raises with message `msg`.
-/

namespace DBService

/-- A JSON value, the wire and column representation. -/
inductive Json where
  | null : Json
  | bool (b : Bool) : Json
  | num (q : ℚ) : Json
  | str (s : String) : Json
  | arr (elems : List Json) : Json
  | obj (fields : List (String × Json)) : Json

/-- pydantic model `BoundingBox` (main.py lines 27-31). -/
structure BoundingBox where
  x : ℚ
  y : ℚ
  width : ℚ
  height : ℚ
deriving DecidableEq

/-- pydantic model `ObjectInfo` (main.py lines 33-35): field `class_name`
with wire alias `class`. -/
structure ObjectInfo where
  class_name : String
  bbox : List ℚ
deriving DecidableEq

/-- pydantic model `DetectionCreate` (main.py lines 37-45). -/
structure DetectionCreate where
  object_class : String
  confidence : ℚ
  bbox : BoundingBox
  objects : Option (List ObjectInfo)
  gemini_analysis : String
deriving DecidableEq

/-- SQLAlchemy row `Detection` (models.py lines 7-16): `bbox` and `objects`
are JSON columns, `objects` nullable. `timestamp` is a server-assigned
instant, modelled abstractly as a natural number. -/
structure Detection where
  id : Nat
  timestamp : Nat
  object_class : String
  confidence : ℚ
  bbox : Json
  objects : Option (List Json)
  gemini_analysis : String

/-- `BoundingBox.dict()`: the JSON blob stored in the `bbox` column. -/
def BoundingBox.toJson (b : BoundingBox) : Json :=
  .obj [("x", .num b.x), ("y", .num b.y), ("width", .num b.width), ("height", .num b.height)]

/-- `ObjectInfo.dict(by_alias=True)`: `class_name` is emitted under its
alias `class`. -/
def ObjectInfo.toJsonAlias (o : ObjectInfo) : Json :=
  .obj [("class", .str o.class_name), ("bbox", .arr (o.bbox.map Json.num))]

/-- Key lookup in a JSON object's field list (first occurrence wins,
extra keys are ignored, as pydantic does). -/
def lookupField (fields : List (String × Json)) (k : String) : Option Json :=
  (fields.find? (fun kv => kv.1 == k)).map (fun kv => kv.2)

/-- A JSON value read as a number, exactly. pydantic v1's `float` validator
accepts strictly more (it coerces ints, bools and numeric strings via
`float(value)`); the request-path validators below therefore abstract the
scalar semantics as a parameter `numV`, of which this exact reader is the
strict instance. On the storage-decode path the leaves are genuine numbers
written by `create_detection`, so there the exact reader is the (faithful)
semantics. -/
def Json.asNum : Json → Option ℚ
  | .num q => some q
  | _ => none

/-- A JSON value read as a string, exactly. pydantic v1's `str` validator
accepts strictly more (it coerces numbers via `str(value)`); abstracted
below as the parameter `strV`, of which this is the strict instance,
faithful on the storage-decode path. -/
def Json.asStr : Json → Option String
  | .str s => some s
  | _ => none

/-- The key-value view pydantic's model validator takes of the value it
validates. pydantic v1 accepts a mapping and also coerces other pair
collections via `dict(value)`; the request-path validators abstract the
view as a parameter `fieldsV`. `objFields` is the plain JSON-object
instance: the view under which rows are stored and re-read. -/
def objFields : Json → Option (List (String × Json))
  | .obj fs => some fs
  | _ => none

/-- `BoundingBox` validation, parametric in the key-value view `fieldsV`
and the scalar semantics `numV`: the model's four fields must be present
under the view and each value accepted by the float validator. -/
def bboxOfJsonWith (fieldsV : Json → Option (List (String × Json)))
    (numV : Json → Option ℚ) (j : Json) : Option BoundingBox :=
  match fieldsV j with
  | some fs =>
      match (lookupField fs ("x")).bind numV,
            (lookupField fs ("y")).bind numV,
            (lookupField fs ("width")).bind numV,
            (lookupField fs ("height")).bind numV with
      | some xv, some yv, some wv, some hv => some ⟨xv, yv, wv, hv⟩
      | _, _, _, _ => none
  | none => none

/-- Elementwise float validation of a JSON list, parametric in the scalar
semantics; any failure aborts. -/
def decodeNumsWith (numV : Json → Option ℚ) : List Json → Option (List ℚ)
  | [] => some []
  | e :: es =>
      match numV e, decodeNumsWith numV es with
      | some q, some qs => some (q :: qs)
      | _, _ => none

/-- `List[float]` validation: the value must be a JSON array (pydantic's
list validator accepts no JSON scalar or object), its elements
float-validated; the length is not constrained. -/
def numListOfJsonWith (numV : Json → Option ℚ) : Json → Option (List ℚ)
  | .arr es => decodeNumsWith numV es
  | _ => none

/-- `ObjectInfo` validation, parametric in view and scalar semantics:
`class_name` is populated only through its alias `class` (the model has no
`allow_population_by_field_name` config of its own) and `bbox` must be an
array of float-accepted values. -/
def objectInfoOfJsonWith (fieldsV : Json → Option (List (String × Json)))
    (strV : Json → Option String) (numV : Json → Option ℚ)
    (j : Json) : Option ObjectInfo :=
  match fieldsV j with
  | some fs =>
      match (lookupField fs ("class")).bind strV,
            (lookupField fs ("bbox")).bind (numListOfJsonWith numV) with
      | some c, some bs => some ⟨c, bs⟩
      | _, _ => none
  | none => none

/-- Elementwise `ObjectInfo` validation of a JSON list, parametric; any
failure aborts. -/
def decodeObjectInfosWith (fieldsV : Json → Option (List (String × Json)))
    (strV : Json → Option String) (numV : Json → Option ℚ) :
    List Json → Option (List ObjectInfo)
  | [] => some []
  | e :: es =>
      match objectInfoOfJsonWith fieldsV strV numV e,
            decodeObjectInfosWith fieldsV strV numV es with
      | some o, some os => some (o :: os)
      | _, _ => none

/-- Validation of the optional `objects` request field, parametric:
omitted or null yields the default `None`; an array is decoded
elementwise; any other JSON value is rejected (pydantic's list validator
accepts no JSON scalar or object). -/
def decodeObjectsFieldWith (fieldsV : Json → Option (List (String × Json)))
    (strV : Json → Option String) (numV : Json → Option ℚ) :
    Option Json → Option (Option (List ObjectInfo))
  | none => some none
  | some Json.null => some none
  | some (Json.arr es) => (decodeObjectInfosWith fieldsV strV numV es).map some
  | some _ => none

/-- `DetectionCreate` request validation, parametric in the key-value view
`fieldsV` and the scalar validators `strV`/`numV`. pydantic's actual
behavior is the instance at its (coercing) view and scalar validators;
theorems quantified over all three parameters therefore hold of the
service whatever those coercions accept. -/
def detectionCreateOfJsonWith (fieldsV : Json → Option (List (String × Json)))
    (strV : Json → Option String) (numV : Json → Option ℚ)
    (j : Json) : Option DetectionCreate :=
  match fieldsV j with
  | some fs =>
      match (lookupField fs ("object_class")).bind strV,
            (lookupField fs ("confidence")).bind numV,
            (lookupField fs ("bbox")).bind (bboxOfJsonWith fieldsV numV),
            (lookupField fs ("gemini_analysis")).bind strV,
            decodeObjectsFieldWith fieldsV strV numV (lookupField fs ("objects")) with
      | some oc, some conf, some bb, some ga, some objs =>
          some ⟨oc, conf, bb, objs, ga⟩
      | _, _, _, _, _ => none
  | none => none

/-- `BoundingBox(**d)` at the exact-scalar, plain-object instance. This is
the faithful semantics for rebuilding stored rows in `get_detections`,
where the `bbox` column holds genuine numbers written by
`create_detection`; as request validation it is the strict core of
`bboxOfJsonWith` (pydantic's coercions only widen scalar acceptance). -/
def bboxOfJson : Json → Option BoundingBox
  | .obj fs =>
      match (lookupField fs ("x")).bind Json.asNum,
            (lookupField fs ("y")).bind Json.asNum,
            (lookupField fs ("width")).bind Json.asNum,
            (lookupField fs ("height")).bind Json.asNum with
      | some xv, some yv, some wv, some hv => some ⟨xv, yv, wv, hv⟩
      | _, _, _, _ => none
  | _ => none

/-- Decode each element of a JSON list as a number, exactly; any failure
aborts. The strict instance of `decodeNumsWith`. -/
def decodeNums : List Json → Option (List ℚ)
  | [] => some []
  | e :: es =>
      match e.asNum, decodeNums es with
      | some q, some qs => some (q :: qs)
      | _, _ => none

/-- A JSON array read as a list of numbers, exactly: the strict instance
of `numListOfJsonWith`. -/
def numListOfJson : Json → Option (List ℚ)
  | .arr es => decodeNums es
  | _ => none

/-- `ObjectInfo(**obj)` at the exact-scalar, plain-object instance:
faithful on the storage-decode path (the stored element dicts carry
genuine strings and numbers), and the strict core of
`objectInfoOfJsonWith` on the request path. `class_name` is populated only
through its alias `class`, and the `bbox` list length is not
constrained. -/
def objectInfoOfJson : Json → Option ObjectInfo
  | .obj fs =>
      match (lookupField fs ("class")).bind Json.asStr,
            (lookupField fs ("bbox")).bind numListOfJson with
      | some c, some bs => some ⟨c, bs⟩
      | _, _ => none
  | _ => none

/-- Decode each element of a JSON list as an `ObjectInfo`; any failure
aborts. -/
def decodeObjectInfos : List Json → Option (List ObjectInfo)
  | [] => some []
  | e :: es =>
      match objectInfoOfJson e, decodeObjectInfos es with
      | some o, some os => some (o :: os)
      | _, _ => none

/-- Validation of the optional `objects` request field at the exact-scalar
instance: omitted or null yields the default `None`; an array is decoded
elementwise; any other JSON type is rejected. -/
def decodeObjectsField : Option Json → Option (Option (List ObjectInfo))
  | none => some none
  | some Json.null => some none
  | some (Json.arr es) => (decodeObjectInfos es).map some
  | some _ => none

/-- Request-body validation of `DetectionCreate` at the exact-scalar,
plain-object instance of `detectionCreateOfJsonWith`. Acceptance by this
instance soundly transfers to the service: pydantic's coercing validators
accept every exactly-typed scalar this instance accepts (and more, e.g.
numeric strings for floats). Rejection facts about the service are stated
against the parametric family instead. `objects` may be omitted or null
(the declared default). -/
def detectionCreateOfJson : Json → Option DetectionCreate
  | .obj fs =>
      match (lookupField fs ("object_class")).bind Json.asStr,
            (lookupField fs ("confidence")).bind Json.asNum,
            (lookupField fs ("bbox")).bind bboxOfJson,
            (lookupField fs ("gemini_analysis")).bind Json.asStr,
            decodeObjectsField (lookupField fs ("objects")) with
      | some oc, some conf, some bb, some ga, some objs =>
          some ⟨oc, conf, bb, objs, ga⟩
      | _, _, _, _, _ => none
  | _ => none

/-- Response serialization of `DetectionCreate` (FastAPI serializes response
models by alias, so `ObjectInfo.class_name` appears as `class`; `None`
fields are emitted as JSON null). -/
def DetectionCreate.toWire (d : DetectionCreate) : Json :=
  .obj [("object_class", .str d.object_class),
        ("confidence", .num d.confidence),
        ("bbox", d.bbox.toJson),
        ("objects",
          match d.objects with
          | none => Json.null
          | some os => .arr (os.map ObjectInfo.toJsonAlias)),
        ("gemini_analysis", .str d.gemini_analysis)]

/-- The persisted table plus the auto-increment counter for `id`. -/
structure Store where
  rows : List Detection
  nextId : Nat

/-- The state after `Base.metadata.drop_all` / `create_all`: empty table,
auto-increment starting at 1. -/
def Store.empty : Store := ⟨[], 1⟩

/-- The result a handler produces: a payload, a raised `HTTPException`
(status code and detail), or an exception that escapes the handler
unhandled. -/
inductive Outcome (α : Type) where
  | ok (a : α) : Outcome α
  | httpError (status : Nat) (detail : String) : Outcome α
  | unhandled (msg : String) : Outcome α

/-- Oracle for a persistence step: `.ok ()` succeeds, `.error msg` raises. -/
abbrev CommitResult := Except String Unit

/-- The row built by `create_detection` (main.py lines 50-57): `bbox` stored
as `detection.bbox.dict()`; `objects` stored as the aliased dicts when
`detection.objects` is truthy, else NULL — in Python an empty list is falsy,
so `some []` is stored as NULL exactly like `none`. -/
def mkRow (input : DetectionCreate) (id ts : Nat) : Detection :=
  { id := id
    timestamp := ts
    object_class := input.object_class
    confidence := input.confidence
    bbox := input.bbox.toJson
    objects :=
      match input.objects with
      | some os => if os.isEmpty then none else some (os.map ObjectInfo.toJsonAlias)
      | none => none
    gemini_analysis := input.gemini_analysis }

/-- Handler `create_detection` (main.py lines 47-63): insert a new row with
a fresh id and server timestamp and echo the input back; on a persistence
error, roll back (the store is unchanged) and raise HTTP 500 carrying the
underlying message. -/
def create_detection (s : Store) (input : DetectionCreate) (now : Nat)
    (commit : CommitResult) : Outcome DetectionCreate × Store :=
  match commit with
  | .ok _ => (.ok input, ⟨s.rows ++ [mkRow input s.nextId now], s.nextId + 1⟩)
  | .error msg => (.httpError 500 msg, s)

/-- Reconstruction of the wire model from a stored row (the comprehension in
`get_detections`, main.py lines 70-77): decode the `bbox` blob, decode the
stored `objects` when truthy — a NULL or empty stored list both become
`None`. Any decode failure raises (caught by the handler). -/
def rowToCreate (d : Detection) : Option DetectionCreate := do
  let bb ← bboxOfJson d.bbox
  let objs ←
    match d.objects with
    | none => some none
    | some js =>
        if js.isEmpty then some none
        else (decodeObjectInfos js).map some
  pure ⟨d.object_class, d.confidence, bb, objs, d.gemini_analysis⟩

/-- Decode a batch of rows; the first failure aborts the whole response
(the comprehension raises out of the loop). -/
def decodeRows : List Detection → Option (List DetectionCreate)
  | [] => some []
  | d :: ds =>
      match rowToCreate d, decodeRows ds with
      | some c, some cs => some (c :: cs)
      | _, _ => none

/-- Handler `get_detections` (main.py lines 65-80): read rows in insertion
order with OFFSET `skip` and LIMIT `limit`, rebuild the wire models; any
failure is caught and raised as HTTP 500 with the underlying message. -/
def get_detections (s : Store) (skip limit : Nat) (query : CommitResult) :
    Outcome (List DetectionCreate) :=
  match query with
  | .error msg => .httpError 500 msg
  | .ok _ =>
      match decodeRows ((s.rows.drop skip).take limit) with
      | some ds => .ok ds
      | none => .httpError 500 ("reconstruction error")

/-- Overwrite `gemini_analysis` on the first row matching the id (the ORM
mutation after `.filter(...).first()`). -/
def setAnalysisFirst : List Detection → Nat → String → List Detection
  | [], _, _ => []
  | d :: ds, id, a =>
      if d.id == id then { d with gemini_analysis := a } :: ds
      else d :: setAnalysisFirst ds id a

/-- Handler `update_gemini_analysis` (main.py lines 82-90): look up the row
by id; if absent raise HTTP 404 detail "Detection not found"; otherwise set
`gemini_analysis` and commit. The commit is not inside any try/except, so a
persistence error there escapes the handler unhandled (and the failed
commit leaves the persisted state unchanged). -/
def update_gemini_analysis (s : Store) (detection_id : Nat) (analysis : String)
    (commit : CommitResult) : Outcome Json × Store :=
  match s.rows.find? (fun d => d.id == detection_id) with
  | none => (.httpError 404 ("Detection not found"), s)
  | some _ =>
      match commit with
      | .ok _ =>
          (.ok (Json.obj [("status", Json.str ("success"))]),
           ⟨setAnalysisFirst s.rows detection_id analysis, s.nextId⟩)
      | .error msg => (.unhandled msg, s)

/-- The conflation `create` followed by `list` performs on `objects`: the
Python truthiness tests map an empty list to NULL, so `some []` collapses
to `none`; everything else survives unchanged. -/
def conflate (input : DetectionCreate) : DetectionCreate :=
  { input with
    objects :=
      match input.objects with
      | some os => if os.isEmpty then none else some os
      | none => none }

theorem bbox_roundtrip (b : BoundingBox) :
    bboxOfJson b.toJson = some b := rfl

theorem decodeNums_roundtrip (l : List ℚ) :
    decodeNums (l.map Json.num) = some l := by
  induction l with
  | nil => rfl
  | cons q qs ih => simp [decodeNums, Json.asNum, ih]

theorem numList_roundtrip (l : List ℚ) :
    numListOfJson (.arr (l.map Json.num)) = some l := by
  simp [numListOfJson, decodeNums_roundtrip]

theorem objectInfo_roundtrip (o : ObjectInfo) :
    objectInfoOfJson o.toJsonAlias = some o := by
  rcases o with ⟨c, bs⟩
  simp [objectInfoOfJson, ObjectInfo.toJsonAlias, lookupField, Json.asStr,
    numList_roundtrip, Option.bind]

theorem objectInfos_roundtrip (os : List ObjectInfo) :
    decodeObjectInfos (os.map ObjectInfo.toJsonAlias) = some os := by
  induction os with
  | nil => rfl
  | cons o os ih => simp [decodeObjectInfos, objectInfo_roundtrip, ih]

theorem rowToCreate_mkRow (input : DetectionCreate) (id ts : Nat) :
    rowToCreate (mkRow input id ts) = some (conflate input) := by
  rcases input with ⟨oc, conf, bb, objs, ga⟩
  cases objs with
  | none => simp [mkRow, rowToCreate, conflate, bbox_roundtrip]
  | some os =>
      cases os with
      | nil => simp [mkRow, rowToCreate, conflate, bbox_roundtrip]
      | cons o os =>
          simp [mkRow, rowToCreate, conflate, bbox_roundtrip,
            decodeObjectInfos, objectInfo_roundtrip, objectInfos_roundtrip,
            List.isEmpty]

theorem decodeRows_cons_some (d : Detection) (ds : List Detection)
    (c : DetectionCreate) (cs : List DetectionCreate)
    (h1 : rowToCreate d = some c) (h2 : decodeRows ds = some cs) :
    decodeRows (d :: ds) = some (c :: cs) := by
  simp [decodeRows, h1, h2]

theorem decodeRows_append (l1 l2 : List Detection) (a1 a2 : List DetectionCreate)
    (h1 : decodeRows l1 = some a1) (h2 : decodeRows l2 = some a2) :
    decodeRows (l1 ++ l2) = some (a1 ++ a2) := by
  induction l1 generalizing a1 with
  | nil =>
      simp [decodeRows] at h1
      subst h1
      simpa using h2
  | cons d ds ih =>
      simp only [decodeRows] at h1
      cases hd : rowToCreate d with
      | none => simp [hd] at h1
      | some c =>
          cases hds : decodeRows ds with
          | none => simp [hd, hds] at h1
          | some cs =>
              simp only [hd, hds] at h1
              rw [Option.some_inj] at h1
              subst h1
              simp [List.cons_append, decodeRows_cons_some d _ c _ hd (ih cs hds)]

theorem decodeRows_take (l : List Detection) (a : List DetectionCreate)
    (h : decodeRows l = some a) (m : Nat) :
    decodeRows (l.take m) = some (a.take m) := by
  induction l generalizing a m with
  | nil =>
      simp [decodeRows] at h
      subst h
      simp [decodeRows]
  | cons d ds ih =>
      simp only [decodeRows] at h
      cases hd : rowToCreate d with
      | none => simp [hd] at h
      | some c =>
          cases hds : decodeRows ds with
          | none => simp [hd, hds] at h
          | some cs =>
              simp only [hd, hds] at h
              rw [Option.some_inj] at h
              subst h
              cases m with
              | zero => rfl
              | succ m =>
                  simp [List.take_succ_cons,
                    decodeRows_cons_some d _ c _ hd (ih cs hds m)]

theorem decodeRows_drop (l : List Detection) (a : List DetectionCreate)
    (h : decodeRows l = some a) (k : Nat) :
    decodeRows (l.drop k) = some (a.drop k) := by
  induction l generalizing a k with
  | nil =>
      simp [decodeRows] at h
      subst h
      simp [decodeRows]
  | cons d ds ih =>
      simp only [decodeRows] at h
      cases hd : rowToCreate d with
      | none => simp [hd] at h
      | some c =>
          cases hds : decodeRows ds with
          | none => simp [hd, hds] at h
          | some cs =>
              simp only [hd, hds] at h
              rw [Option.some_inj] at h
              subst h
              cases k with
              | zero => simp [decodeRows_cons_some d _ c _ hd hds]
              | succ k => simpa using ih cs hds k

theorem decodeRows_length (l : List Detection) (a : List DetectionCreate)
    (h : decodeRows l = some a) : a.length = l.length := by
  induction l generalizing a with
  | nil =>
      simp [decodeRows] at h
      subst h
      rfl
  | cons d ds ih =>
      simp only [decodeRows] at h
      cases hd : rowToCreate d with
      | none => simp [hd] at h
      | some c =>
          cases hds : decodeRows ds with
          | none => simp [hd, hds] at h
          | some cs =>
              simp only [hd, hds] at h
              rw [Option.some_inj] at h
              subst h
              simp [ih cs hds]

/-- A concrete valid input used to instantiate the claim theorems. -/
def sampleInput : DetectionCreate :=
  ⟨"car", 1, ⟨10, 20, 30, 40⟩, some [⟨"wheel", [1, 2, 3, 4]⟩], "a red car"⟩

/-- The row `sampleInput` produces with id 1 at server time 0. -/
def sampleRow : Detection := mkRow sampleInput 1 0

/-- A one-row store as left by a single successful create. -/
def sampleStore : Store := ⟨[sampleRow], 2⟩

/-- C2: with the store holding decodable rows, `get_detections` returns
exactly the decoded records at creation-order positions `k` through
`min (k+m, N) - 1`, in creation order; listing at `skip = N` returns the
empty sequence; the result is always an `.ok` sequence, never null. -/
theorem c2_pagination (s : Store) (all : List DetectionCreate) (k m : Nat)
    (h : decodeRows s.rows = some all) :
    get_detections s k m (.ok ()) = .ok ((all.drop k).take m) ∧
    ((all.drop k).take m).length = min (s.rows.length - k) m ∧
    (∀ i, ((all.drop k).take m)[i]? = if i < m then all[k + i]? else none) ∧
    get_detections s s.rows.length m (.ok ()) = .ok [] := by
  have hdk := decodeRows_drop _ _ h k
  have hdt := decodeRows_take _ _ hdk m
  have hlen := decodeRows_length _ _ h
  refine ⟨by simp [get_detections, hdt], ?_, ?_, ?_⟩
  · simp only [List.length_take, List.length_drop, hlen]
    omega
  · intro i
    by_cases hi : i < m
    · simp [hi, List.getElem?_take_of_lt hi, List.getElem?_drop]
    · have hle : ((all.drop k).take m).length ≤ i := by
        have := List.length_take_le m (all.drop k)
        omega
      simp [hi, List.getElem?_eq_none hle]
  · have hdrop : s.rows.drop s.rows.length = [] := List.drop_length s.rows
    simp [get_detections, hdrop, decodeRows]

/-- Witness for C2 on a concrete one-row store. -/
theorem c2_pagination_witness :
    decodeRows sampleStore.rows = some [conflate sampleInput] ∧
    (get_detections sampleStore 0 1 (.ok ())
        = .ok (([conflate sampleInput].drop 0).take 1) ∧
      (([conflate sampleInput].drop 0).take 1).length
        = min (sampleStore.rows.length - 0) 1 ∧
      (∀ i, (([conflate sampleInput].drop 0).take 1)[i]?
        = if i < 1 then [conflate sampleInput][0 + i]? else none) ∧
      get_detections sampleStore sampleStore.rows.length 1 (.ok ()) = .ok []) :=
  ⟨rfl, c2_pagination sampleStore [conflate sampleInput] 0 1 rfl⟩

/-- C3: updating the annotation of an id that identifies no stored record
fails with HTTP 404 detail "Detection not found" and leaves the whole store
(rows and id counter) unchanged. -/
theorem c3_update_not_found (s : Store) (id : Nat) (a : String)
    (c : CommitResult) (h : ∀ d ∈ s.rows, d.id ≠ id) :
    update_gemini_analysis s id a c = (.httpError 404 ("Detection not found"), s) := by
  have hf : s.rows.find? (fun d => d.id == id) = none := by
    rw [List.find?_eq_none]
    intro d hd
    simpa using h d hd
  simp [update_gemini_analysis, hf]

/-- Witness for C3: id 99 is absent from the one-row store. -/
theorem c3_update_not_found_witness :
    (∀ d ∈ sampleStore.rows, d.id ≠ 99) ∧
    update_gemini_analysis sampleStore 99 ("x") (.ok ())
      = (.httpError 404 ("Detection not found"), sampleStore) := by
  have h : ∀ d ∈ sampleStore.rows, d.id ≠ 99 := by
    intro d hd
    simp only [sampleStore, List.mem_singleton] at hd
    subst hd
    decide
  exact ⟨h, c3_update_not_found sampleStore 99 ("x") (.ok ()) h⟩

/-- C5: a successful create echoes back exactly the validated input, whose
wire serialization carries only the five client fields and no id or
timestamp key, while the persisted row does receive the server-assigned id
(`nextId`) and timestamp and the id counter advances. -/
theorem c5_create_echo (s : Store) (input : DetectionCreate) (now : Nat) :
    (create_detection s input now (.ok ())).1 = .ok input ∧
    (create_detection s input now (.ok ())).2.rows
      = s.rows ++ [mkRow input s.nextId now] ∧
    (mkRow input s.nextId now).id = s.nextId ∧
    (mkRow input s.nextId now).timestamp = now ∧
    (create_detection s input now (.ok ())).2.nextId = s.nextId + 1 ∧
    ∃ fs, DetectionCreate.toWire input = Json.obj fs ∧
      fs.map Prod.fst
        = ["object_class", "confidence", "bbox", "objects", "gemini_analysis"] ∧
      ∀ v : Json, ("id", v) ∉ fs ∧ ("timestamp", v) ∉ fs := by
  refine ⟨rfl, rfl, rfl, rfl, rfl, ⟨_, rfl, rfl, ?_⟩⟩
  intro v
  constructor <;> simp [DetectionCreate.toWire]

/-- C6: a create whose persistence step fails is rolled back: the handler
reports HTTP 500 carrying the underlying message and the store is exactly
what it was before the call. -/
theorem c6_create_rollback (s : Store) (input : DetectionCreate) (now : Nat)
    (msg : String) :
    create_detection s input now (.error msg) = (.httpError 500 msg, s) := rfl

/-- C9: a store failure during create or list is caught at the handler
boundary and becomes HTTP 500 with the underlying message, whereas a
persistence failure in the update path's commit escapes the handler
unhandled. -/
theorem c9_error_asymmetry (s : Store) (input : DetectionCreate)
    (now k m id : Nat) (a msg : String) (h : ∃ d ∈ s.rows, d.id = id) :
    (create_detection s input now (.error msg)).1 = .httpError 500 msg ∧
    get_detections s k m (.error msg) = .httpError 500 msg ∧
    (update_gemini_analysis s id a (.error msg)).1 = .unhandled msg := by
  refine ⟨rfl, rfl, ?_⟩
  obtain ⟨d, hd, hid⟩ := h
  have hsome : (s.rows.find? (fun d => d.id == id)).isSome := by
    rw [List.find?_isSome]
    exact ⟨d, hd, by simp [hid]⟩
  cases hf : s.rows.find? (fun d => d.id == id) with
  | none => rw [hf] at hsome; simp at hsome
  | some d' => simp [update_gemini_analysis, hf]

/-- Witness for C9 on the one-row store, id 1. -/
theorem c9_error_asymmetry_witness :
    (∃ d ∈ sampleStore.rows, d.id = 1) ∧
    ((create_detection sampleStore sampleInput 0 (.error ("boom"))).1
        = .httpError 500 ("boom") ∧
      get_detections sampleStore 0 100 (.error ("boom"))
        = .httpError 500 ("boom") ∧
      (update_gemini_analysis sampleStore 1 ("x") (.error ("boom"))).1
        = .unhandled ("boom")) := by
  have h : ∃ d ∈ sampleStore.rows, d.id = 1 :=
    ⟨sampleRow, by simp [sampleStore], rfl⟩
  exact ⟨h, c9_error_asymmetry sampleStore sampleInput 0 0 100 1 ("x") ("boom") h⟩

/-- An input carrying an explicit empty `objects` list (valid per the wire
schema, distinct from an absent `objects`). -/
def emptyObjectsInput : DetectionCreate :=
  ⟨"car", 1, ⟨10, 20, 30, 40⟩, some [], "a red car"⟩

/-- C1 counterexample: creating a record whose `objects` is the empty
sequence and listing it back returns `objects` absent — the Python
truthiness test in both handlers collapses `[]` to NULL, so the distinction
the claim requires is not preserved. -/
theorem c1_counterexample_empty_objects :
    get_detections (create_detection Store.empty emptyObjectsInput 0 (.ok ())).2
        0 100 (.ok ())
      = .ok [{ emptyObjectsInput with objects := none }] ∧
    emptyObjectsInput.objects = some [] ∧
    ({ emptyObjectsInput with objects := none } : DetectionCreate).objects
      ≠ some [] := by
  refine ⟨rfl, rfl, by simp⟩

/-- C1 (amended): create followed by list round-trips every client field
exactly, except that an empty `objects` sequence is conflated with an
absent one (both come back absent); nonempty `objects` sequences survive
unchanged and each element's `class_name` is re-emitted on the wire under
the key `class`, with no `class_name` key. -/
theorem c1_round_trip (s : Store) (all : List DetectionCreate)
    (input : DetectionCreate) (now m : Nat)
    (h : decodeRows s.rows = some all) (hm : s.rows.length < m) :
    get_detections (create_detection s input now (.ok ())).2 0 m (.ok ())
      = .ok (all ++ [conflate input]) ∧
    (all ++ [conflate input]).getLast? = some (conflate input) ∧
    (conflate input).object_class = input.object_class ∧
    (conflate input).confidence = input.confidence ∧
    (conflate input).bbox = input.bbox ∧
    (conflate input).gemini_analysis = input.gemini_analysis ∧
    (input.objects = none → (conflate input).objects = none) ∧
    (input.objects = some [] → (conflate input).objects = none) ∧
    (∀ o os, input.objects = some (o :: os) →
      (conflate input).objects = some (o :: os)) ∧
    (∀ o : ObjectInfo, ∃ fs, o.toJsonAlias = Json.obj fs ∧
      lookupField fs ("class") = some (Json.str o.class_name) ∧
      lookupField fs ("class_name") = none) := by
  have hsingle : decodeRows [mkRow input s.nextId now] = some [conflate input] := by
    simp [decodeRows, rowToCreate_mkRow]
  have happ := decodeRows_append _ _ _ _ h hsingle
  have hlen := decodeRows_length _ _ happ
  have hrows : (create_detection s input now (.ok ())).2.rows
      = s.rows ++ [mkRow input s.nextId now] := rfl
  refine ⟨?_, by simp, rfl, rfl, rfl, rfl, ?_, ?_, ?_, ?_⟩
  · have htake : (s.rows ++ [mkRow input s.nextId now]).take m
        = s.rows ++ [mkRow input s.nextId now] := by
      apply List.take_of_length_le
      simp
      omega
    simp [get_detections, hrows, htake, happ]
  · intro ho
    simp [conflate, ho]
  · intro ho
    simp [conflate, ho]
  · intro o os ho
    simp [conflate, ho]
  · intro o
    exact ⟨_, rfl, rfl, rfl⟩

/-- Witness for C1 (amended) on the empty store and the sample input. -/
theorem c1_round_trip_witness :
    (decodeRows Store.empty.rows = some [] ∧ Store.empty.rows.length < 100) ∧
    (get_detections (create_detection Store.empty sampleInput 0 (.ok ())).2
        0 100 (.ok ())
      = .ok ([] ++ [conflate sampleInput]) ∧
    ([] ++ [conflate sampleInput]).getLast? = some (conflate sampleInput) ∧
    (conflate sampleInput).object_class = sampleInput.object_class ∧
    (conflate sampleInput).confidence = sampleInput.confidence ∧
    (conflate sampleInput).bbox = sampleInput.bbox ∧
    (conflate sampleInput).gemini_analysis = sampleInput.gemini_analysis ∧
    (sampleInput.objects = none → (conflate sampleInput).objects = none) ∧
    (sampleInput.objects = some [] → (conflate sampleInput).objects = none) ∧
    (∀ o os, sampleInput.objects = some (o :: os) →
      (conflate sampleInput).objects = some (o :: os)) ∧
    (∀ o : ObjectInfo, ∃ fs, o.toJsonAlias = Json.obj fs ∧
      lookupField fs ("class") = some (Json.str o.class_name) ∧
      lookupField fs ("class_name") = none)) :=
  ⟨⟨rfl, by decide⟩, c1_round_trip Store.empty [] sampleInput 0 100 rfl (by decide)⟩

/-- Pointwise description of a first-match annotation update when ids are
pairwise distinct. -/
theorem setAnalysisFirst_eq_map (rows : List Detection) (id : Nat) (a : String)
    (hu : rows.Pairwise (fun d e => d.id ≠ e.id)) :
    setAnalysisFirst rows id a
      = rows.map (fun d => if d.id = id then { d with gemini_analysis := a } else d) := by
  induction rows with
  | nil => rfl
  | cons d ds ih =>
      rw [List.pairwise_cons] at hu
      obtain ⟨hd, hds⟩ := hu
      by_cases hid : d.id = id
      · have hrest : ds.map
            (fun e => if e.id = id then { e with gemini_analysis := a } else e) = ds := by
          rw [List.map_congr_left ?_]
          · exact List.map_id ds
          · intro e he
            have : e.id ≠ id := by
              intro hcontra
              exact hd e he (hid.trans hcontra.symm)
            simp [this]
        simp [setAnalysisFirst, hid, hrest]
      · have : (d.id == id) = false := by simp [hid]
        simp [setAnalysisFirst, this, hid, ih hds]

/-- C4: on a store with pairwise-distinct ids containing the target id, the
update handler returns `{status: "success"}` and replaces only the
`gemini_analysis` of the matching record; every other field of that record
and every field of every other record, and the id counter, are unchanged. -/
theorem c4_update_frame (s : Store) (id : Nat) (a : String)
    (hu : s.rows.Pairwise (fun d e => d.id ≠ e.id))
    (h : ∃ d ∈ s.rows, d.id = id) :
    update_gemini_analysis s id a (.ok ())
      = (.ok (Json.obj [("status", Json.str ("success"))]),
         ⟨s.rows.map (fun d => if d.id = id then { d with gemini_analysis := a } else d),
          s.nextId⟩) ∧
    ∀ d ∈ s.rows,
      ∃ d' ∈ (update_gemini_analysis s id a (.ok ())).2.rows,
        d'.id = d.id ∧ d'.timestamp = d.timestamp ∧
        d'.object_class = d.object_class ∧ d'.confidence = d.confidence ∧
        d'.bbox = d.bbox ∧ d'.objects = d.objects ∧
        d'.gemini_analysis = (if d.id = id then a else d.gemini_analysis) := by
  obtain ⟨d0, hd0, hid0⟩ := h
  have hsome : (s.rows.find? (fun d => d.id == id)).isSome := by
    rw [List.find?_isSome]
    exact ⟨d0, hd0, by simp [hid0]⟩
  have hmain : update_gemini_analysis s id a (.ok ())
      = (.ok (Json.obj [("status", Json.str ("success"))]),
         ⟨s.rows.map (fun d => if d.id = id then { d with gemini_analysis := a } else d),
          s.nextId⟩) := by
    cases hf : s.rows.find? (fun d => d.id == id) with
    | none => rw [hf] at hsome; simp at hsome
    | some dfound =>
        simp [update_gemini_analysis, hf, setAnalysisFirst_eq_map s.rows id a hu]
  refine ⟨hmain, ?_⟩
  intro d hd
  refine ⟨if d.id = id then { d with gemini_analysis := a } else d, ?_, ?_⟩
  · rw [hmain]
    exact List.mem_map_of_mem _ hd
  · by_cases hdid : d.id = id <;> simp [hdid]

/-- Witness for C4: update id 1 in the one-row store. -/
theorem c4_update_frame_witness :
    (sampleStore.rows.Pairwise (fun d e => d.id ≠ e.id) ∧
      ∃ d ∈ sampleStore.rows, d.id = 1) ∧
    (update_gemini_analysis sampleStore 1 ("new text") (.ok ())
      = (.ok (Json.obj [("status", Json.str ("success"))]),
         ⟨sampleStore.rows.map
            (fun d => if d.id = 1 then { d with gemini_analysis := ("new text") } else d),
          sampleStore.nextId⟩) ∧
    ∀ d ∈ sampleStore.rows,
      ∃ d' ∈ (update_gemini_analysis sampleStore 1 ("new text") (.ok ())).2.rows,
        d'.id = d.id ∧ d'.timestamp = d.timestamp ∧
        d'.object_class = d.object_class ∧ d'.confidence = d.confidence ∧
        d'.bbox = d.bbox ∧ d'.objects = d.objects ∧
        d'.gemini_analysis = (if d.id = 1 then ("new text") else d.gemini_analysis)) := by
  have hu : sampleStore.rows.Pairwise (fun d e => d.id ≠ e.id) := by
    simp [sampleStore]
  have h : ∃ d ∈ sampleStore.rows, d.id = 1 :=
    ⟨sampleRow, by simp [sampleStore], rfl⟩
  exact ⟨⟨hu, h⟩, c4_update_frame sampleStore 1 ("new text") hu h⟩

/-- `rowToCreate` commutes with replacing `object_class`: the reconstruction
never inspects that field's value. -/
theorem rowToCreate_object_class (d : Detection) (c : String) :
    rowToCreate { d with object_class := c }
      = (rowToCreate d).map (fun e => { e with object_class := c }) := by
  cases hbb : bboxOfJson d.bbox with
  | none => simp [rowToCreate, hbb]
  | some bb =>
      cases hobjs : d.objects with
      | none => simp [rowToCreate, hbb, hobjs]
      | some js =>
          by_cases hemp : js.isEmpty
          · simp [rowToCreate, hbb, hobjs, hemp]
          · cases hdec : decodeObjectInfos js with
            | none => simp [rowToCreate, hbb, hobjs, hemp, hdec]
            | some os => simp [rowToCreate, hbb, hobjs, hemp, hdec]

/-- C8: a record with `object_class = "scene"` is handled exactly like any
other: the stored `bbox` blob is the verbatim serialization of the input
box, it decodes back to the same box, the listed entry carries it
unchanged, and neither the stored row nor the reconstruction depends on the
value of `object_class` beyond passing it through. -/
theorem c8_scene_uniform (s : Store) (all : List DetectionCreate)
    (input : DetectionCreate) (now m : Nat)
    (hscene : input.object_class = "scene")
    (h : decodeRows s.rows = some all) (hm : s.rows.length < m) :
    (mkRow input s.nextId now).bbox = input.bbox.toJson ∧
    bboxOfJson (mkRow input s.nextId now).bbox = some input.bbox ∧
    get_detections (create_detection s input now (.ok ())).2 0 m (.ok ())
      = .ok (all ++ [conflate input]) ∧
    (conflate input).bbox = input.bbox ∧
    (conflate input).object_class = "scene" ∧
    (∀ c : String, mkRow { input with object_class := c } s.nextId now
        = { mkRow input s.nextId now with object_class := c }) ∧
    (∀ c : String, ∀ d : Detection, rowToCreate { d with object_class := c }
        = (rowToCreate d).map (fun e => { e with object_class := c })) := by
  have hsingle : decodeRows [mkRow input s.nextId now] = some [conflate input] := by
    simp [decodeRows, rowToCreate_mkRow]
  have happ := decodeRows_append _ _ _ _ h hsingle
  have hrows : (create_detection s input now (.ok ())).2.rows
      = s.rows ++ [mkRow input s.nextId now] := rfl
  refine ⟨rfl, bbox_roundtrip input.bbox, ?_, rfl, hscene, ?_, ?_⟩
  · have htake : (s.rows ++ [mkRow input s.nextId now]).take m
        = s.rows ++ [mkRow input s.nextId now] := by
      apply List.take_of_length_le
      simp
      omega
    simp [get_detections, hrows, htake, happ]
  · intro c
    simp [mkRow]
  · intro c d
    exact rowToCreate_object_class d c

/-- Witness for C8 with a concrete scene record on the empty store. -/
theorem c8_scene_uniform_witness :
    ((⟨"scene", 1, ⟨0, 0, 640, 480⟩, none, "a street"⟩ :
        DetectionCreate).object_class = "scene" ∧
      decodeRows Store.empty.rows = some [] ∧ Store.empty.rows.length < 10) ∧
    ((mkRow ⟨"scene", 1, ⟨0, 0, 640, 480⟩, none, "a street"⟩ Store.empty.nextId 0).bbox
        = (⟨0, 0, 640, 480⟩ : BoundingBox).toJson ∧
    bboxOfJson (mkRow ⟨"scene", 1, ⟨0, 0, 640, 480⟩, none, "a street"⟩
        Store.empty.nextId 0).bbox = some ⟨0, 0, 640, 480⟩ ∧
    get_detections
        (create_detection Store.empty
          ⟨"scene", 1, ⟨0, 0, 640, 480⟩, none, "a street"⟩ 0 (.ok ())).2
        0 10 (.ok ())
      = .ok ([] ++ [conflate ⟨"scene", 1, ⟨0, 0, 640, 480⟩, none, "a street"⟩]) ∧
    (conflate ⟨"scene", 1, ⟨0, 0, 640, 480⟩, none, "a street"⟩).bbox
      = (⟨0, 0, 640, 480⟩ : BoundingBox) ∧
    (conflate ⟨"scene", 1, ⟨0, 0, 640, 480⟩, none, "a street"⟩).object_class
      = "scene" ∧
    (∀ c : String,
      mkRow { (⟨"scene", 1, ⟨0, 0, 640, 480⟩, none, "a street"⟩ : DetectionCreate)
          with object_class := c } Store.empty.nextId 0
        = { mkRow ⟨"scene", 1, ⟨0, 0, 640, 480⟩, none, "a street"⟩
            Store.empty.nextId 0 with object_class := c }) ∧
    (∀ c : String, ∀ d : Detection, rowToCreate { d with object_class := c }
        = (rowToCreate d).map (fun e => { e with object_class := c }))) :=
  ⟨⟨rfl, rfl, by decide⟩,
    c8_scene_uniform Store.empty [] ⟨"scene", 1, ⟨0, 0, 640, 480⟩, none, "a street"⟩
      0 10 rfl rfl (by decide)⟩

/-- The exact-scalar `bbox` validator is the plain-view instance of the
parametric family. -/
theorem bboxOfJson_eq_with (j : Json) :
    bboxOfJson j = bboxOfJsonWith objFields Json.asNum j := by
  cases j <;> rfl

theorem decodeNums_eq_with (es : List Json) :
    decodeNums es = decodeNumsWith Json.asNum es := by
  induction es with
  | nil => rfl
  | cons e es ih => simp [decodeNums, decodeNumsWith, ih]

theorem numListOfJson_eq_with (j : Json) :
    numListOfJson j = numListOfJsonWith Json.asNum j := by
  cases j <;> simp [numListOfJson, numListOfJsonWith, decodeNums_eq_with]

theorem objectInfoOfJson_eq_with (j : Json) :
    objectInfoOfJson j = objectInfoOfJsonWith objFields Json.asStr Json.asNum j := by
  cases j with
  | obj fs =>
      have hb : (lookupField fs ("bbox")).bind numListOfJson
          = (lookupField fs ("bbox")).bind (numListOfJsonWith Json.asNum) := by
        cases lookupField fs ("bbox") with
        | none => rfl
        | some v => simp [Option.bind, numListOfJson_eq_with]
      simp [objectInfoOfJson, objectInfoOfJsonWith, objFields, hb]
  | null => rfl
  | bool b' => rfl
  | num q => rfl
  | str s' => rfl
  | arr es => rfl

theorem decodeObjectInfos_eq_with (es : List Json) :
    decodeObjectInfos es = decodeObjectInfosWith objFields Json.asStr Json.asNum es := by
  induction es with
  | nil => rfl
  | cons e es ih =>
      simp [decodeObjectInfos, decodeObjectInfosWith, objectInfoOfJson_eq_with, ih]

theorem decodeObjectsField_eq_with (x : Option Json) :
    decodeObjectsField x = decodeObjectsFieldWith objFields Json.asStr Json.asNum x := by
  cases x with
  | none => rfl
  | some v =>
      cases v <;> simp [decodeObjectsField, decodeObjectsFieldWith, decodeObjectInfos_eq_with]

/-- The exact-scalar request validator is the plain-view instance of the
parametric family: whatever it accepts, every wider (coercing)
instantiation accepts too. -/
theorem detectionCreateOfJson_eq_with (j : Json) :
    detectionCreateOfJson j
      = detectionCreateOfJsonWith objFields Json.asStr Json.asNum j := by
  cases j with
  | obj fs =>
      have hb : (lookupField fs ("bbox")).bind bboxOfJson
          = (lookupField fs ("bbox")).bind (bboxOfJsonWith objFields Json.asNum) := by
        cases lookupField fs ("bbox") with
        | none => rfl
        | some v => simp [Option.bind, bboxOfJson_eq_with]
      simp [detectionCreateOfJson, detectionCreateOfJsonWith, objFields, hb,
        decodeObjectsField_eq_with]
  | null => rfl
  | bool b' => rfl
  | num q => rfl
  | str s' => rfl
  | arr es => rfl

/-- Presence of the four `BoundingBox` keys under the view `fieldsV`: what
bbox validation requires regardless of how scalars are coerced. -/
def BboxKeysPresent (fieldsV : Json → Option (List (String × Json)))
    (j : Json) : Prop :=
  ∃ fs, fieldsV j = some fs ∧
    (lookupField fs ("x")).isSome ∧ (lookupField fs ("y")).isSome ∧
    (lookupField fs ("width")).isSome ∧ (lookupField fs ("height")).isSome

/-- Presence of the `ObjectInfo` keys under the view `fieldsV`: the wire
key `class` must be present and `bbox` must be present as an array —
regardless of scalar coercions. -/
def ObjectInfoKeysPresent (fieldsV : Json → Option (List (String × Json)))
    (j : Json) : Prop :=
  ∃ fs, fieldsV j = some fs ∧
    (lookupField fs ("class")).isSome ∧
    ∃ es, lookupField fs ("bbox") = some (Json.arr es)

/-- The required structure of an accepted request body, relative to the
key-value view `fieldsV`: all four required keys present, the bbox value
carrying its four keys, and `objects` absent, null, or an array whose
every element carries `class` and an array `bbox`. -/
def DetectionCreateKeysPresent (fieldsV : Json → Option (List (String × Json)))
    (j : Json) : Prop :=
  ∃ fs, fieldsV j = some fs ∧
    (lookupField fs ("object_class")).isSome ∧
    (lookupField fs ("confidence")).isSome ∧
    (∃ bj, lookupField fs ("bbox") = some bj ∧ BboxKeysPresent fieldsV bj) ∧
    (lookupField fs ("gemini_analysis")).isSome ∧
    (lookupField fs ("objects") = none ∨
      lookupField fs ("objects") = some Json.null ∨
      ∃ es, lookupField fs ("objects") = some (Json.arr es) ∧
        ∀ e ∈ es, ObjectInfoKeysPresent fieldsV e)

theorem isSome_of_bind_eq_some {α β : Type} (x : Option α) (f : α → Option β)
    (b : β) (h : x.bind f = some b) : x.isSome := by
  cases x with
  | none => simp at h
  | some a => rfl

theorem bind_eq_some_parts {α β : Type} (x : Option α) (f : α → Option β)
    (b : β) (h : x.bind f = some b) : ∃ a, x = some a ∧ f a = some b := by
  cases x with
  | none => simp at h
  | some a => exact ⟨a, rfl, by simpa [Option.bind] using h⟩

theorem bboxKeys_of_decodeWith (fieldsV : Json → Option (List (String × Json)))
    (numV : Json → Option ℚ) (j : Json) (b : BoundingBox)
    (h : bboxOfJsonWith fieldsV numV j = some b) : BboxKeysPresent fieldsV j := by
  simp only [bboxOfJsonWith] at h
  split at h
  · rename_i fs hfs
    split at h
    · rename_i xv yv wv hv hx hy hw hh
      exact ⟨fs, hfs, isSome_of_bind_eq_some _ _ _ hx,
        isSome_of_bind_eq_some _ _ _ hy, isSome_of_bind_eq_some _ _ _ hw,
        isSome_of_bind_eq_some _ _ _ hh⟩
    all_goals simp at h
  · simp at h

theorem objectInfoKeys_of_decodeWith (fieldsV : Json → Option (List (String × Json)))
    (strV : Json → Option String) (numV : Json → Option ℚ)
    (j : Json) (o : ObjectInfo)
    (h : objectInfoOfJsonWith fieldsV strV numV j = some o) :
    ObjectInfoKeysPresent fieldsV j := by
  simp only [objectInfoOfJsonWith] at h
  split at h
  · rename_i fs hfs
    split at h
    · rename_i c bs hc hb
      obtain ⟨v, hv, hnv⟩ := bind_eq_some_parts _ _ _ hb
      refine ⟨fs, hfs, isSome_of_bind_eq_some _ _ _ hc, ?_⟩
      cases v with
      | arr es => exact ⟨es, hv⟩
      | null => simp [numListOfJsonWith] at hnv
      | bool b' => simp [numListOfJsonWith] at hnv
      | num q => simp [numListOfJsonWith] at hnv
      | str s' => simp [numListOfJsonWith] at hnv
      | obj fs' => simp [numListOfJsonWith] at hnv
    all_goals simp at h
  · simp at h

theorem decodeObjectInfosWith_present (fieldsV : Json → Option (List (String × Json)))
    (strV : Json → Option String) (numV : Json → Option ℚ)
    (es : List Json) (os : List ObjectInfo)
    (h : decodeObjectInfosWith fieldsV strV numV es = some os) :
    ∀ e ∈ es, ObjectInfoKeysPresent fieldsV e := by
  induction es generalizing os with
  | nil => intro e he; simp at he
  | cons e0 es ih =>
      intro e he
      simp only [decodeObjectInfosWith] at h
      cases h0 : objectInfoOfJsonWith fieldsV strV numV e0 with
      | none => rw [h0] at h; simp at h
      | some o0 =>
          rw [h0] at h
          cases hrest : decodeObjectInfosWith fieldsV strV numV es with
          | none => rw [hrest] at h; simp at h
          | some orest =>
              rcases List.mem_cons.mp he with he0 | hes
              · subst he0
                exact objectInfoKeys_of_decodeWith fieldsV strV numV e o0 h0
              · exact ih orest hrest e hes

theorem decodeObjectsFieldWith_cases (fieldsV : Json → Option (List (String × Json)))
    (strV : Json → Option String) (numV : Json → Option ℚ)
    (x : Option Json) (objs : Option (List ObjectInfo))
    (h : decodeObjectsFieldWith fieldsV strV numV x = some objs) :
    x = none ∨ x = some Json.null ∨
      ∃ es os, x = some (Json.arr es) ∧
        decodeObjectInfosWith fieldsV strV numV es = some os := by
  cases x with
  | none => exact Or.inl rfl
  | some v =>
      cases v with
      | null => exact Or.inr (Or.inl rfl)
      | arr es =>
          refine Or.inr (Or.inr ⟨es, ?_⟩)
          simp only [decodeObjectsFieldWith] at h
          cases hdec : decodeObjectInfosWith fieldsV strV numV es with
          | none => rw [hdec] at h; simp at h
          | some os => exact ⟨os, rfl, rfl⟩
      | bool b' => simp [decodeObjectsFieldWith] at h
      | num q => simp [decodeObjectsFieldWith] at h
      | str s' => simp [decodeObjectsFieldWith] at h
      | obj fs' => simp [decodeObjectsFieldWith] at h

/-- C7 (amended): create rejects, before anything reaches the store, every
request body missing the required structure — whatever key-value view and
scalar coercions pydantic applies, an accepted body presents the keys
`object_class`, `confidence`, `bbox` and `gemini_analysis` under that
view, its `bbox` value presents `x`, `y`, `width` and `height`, and
`objects`, when present and non-null, is an array whose every element
presents the wire key `class` and an array under `bbox`. Scalar typing is
enforced only up to pydantic's coercions, empty strings are accepted, and
an element's `bbox` length is unconstrained. -/
theorem c7_required_fields (fieldsV : Json → Option (List (String × Json)))
    (strV : Json → Option String) (numV : Json → Option ℚ)
    (j : Json) (d : DetectionCreate)
    (h : detectionCreateOfJsonWith fieldsV strV numV j = some d) :
    DetectionCreateKeysPresent fieldsV j := by
  simp only [detectionCreateOfJsonWith] at h
  split at h
  · rename_i fs hfs
    split at h
    · rename_i oc conf bb ga objs hoc hcf hbb hga hobjs
      obtain ⟨bj, hbj, hdec⟩ := bind_eq_some_parts _ _ _ hbb
      refine ⟨fs, hfs, isSome_of_bind_eq_some _ _ _ hoc,
        isSome_of_bind_eq_some _ _ _ hcf,
        ⟨bj, hbj, bboxKeys_of_decodeWith fieldsV numV bj bb hdec⟩,
        isSome_of_bind_eq_some _ _ _ hga, ?_⟩
      rcases decodeObjectsFieldWith_cases fieldsV strV numV _ _ hobjs with
        h1 | h2 | ⟨es, os, hes, hdec2⟩
      · exact Or.inl h1
      · exact Or.inr (Or.inl h2)
      · exact Or.inr (Or.inr
          ⟨es, hes, decodeObjectInfosWith_present fieldsV strV numV es os hdec2⟩)
    all_goals simp at h
  · simp at h

/-- A request body violating the claimed constraints: empty `object_class`
and `gemini_analysis`, and an objects element whose `bbox` has only two
numbers. -/
def laxInput : Json :=
  Json.obj
    [("object_class", Json.str ("")),
     ("confidence", Json.num 1),
     ("bbox", Json.obj [("x", Json.num 0), ("y", Json.num 0),
                        ("width", Json.num 0), ("height", Json.num 0)]),
     ("objects", Json.arr [Json.obj [("class", Json.str ("wheel")),
                                     ("bbox", Json.arr [Json.num 1, Json.num 2])]]),
     ("gemini_analysis", Json.str (""))]

/-- The value `laxInput` validates to. -/
def laxDecoded : DetectionCreate :=
  ⟨"", 1, ⟨0, 0, 0, 0⟩, some [⟨"wheel", [1, 2]⟩], ""⟩

/-- C7 counterexample: validation accepts a body whose `object_class` and
`gemini_analysis` are empty strings and whose objects element carries a
2-element `bbox`, so the claimed non-emptiness and 4-element checks do not
exist. Every scalar in `laxInput` is exactly typed, so no coercion is
involved: acceptance by the strict instance transfers verbatim to the
service's coercing validators. -/
theorem c7_counterexample_lax_accepted :
    detectionCreateOfJson laxInput = some laxDecoded ∧
    laxDecoded.object_class = "" ∧
    laxDecoded.gemini_analysis = "" ∧
    laxDecoded.objects = some [⟨"wheel", [1, 2]⟩] := ⟨rfl, rfl, rfl, rfl⟩

/-- Witness for C7 (amended): at the plain view and exact scalar
validators, the accepted body `laxInput` presents all required keys. -/
theorem c7_required_fields_witness :
    detectionCreateOfJsonWith objFields Json.asStr Json.asNum laxInput
      = some laxDecoded ∧
    DetectionCreateKeysPresent objFields laxInput :=
  ⟨rfl, c7_required_fields objFields Json.asStr Json.asNum laxInput laxDecoded rfl⟩

/-- The store states reachable from schema initialization by the three
handlers, with arbitrary persistence outcomes. -/
inductive Reachable : Store → Prop where
  | init : Reachable Store.empty
  | createStep (s : Store) (input : DetectionCreate) (now : Nat)
      (c : CommitResult) (h : Reachable s) :
      Reachable (create_detection s input now c).2
  | updateStep (s : Store) (id : Nat) (a : String) (c : CommitResult)
      (h : Reachable s) :
      Reachable (update_gemini_analysis s id a c).2

/-- The stored-column shape create always writes into `bbox`: a JSON
mapping with exactly the keys `x`, `y`, `width`, `height`, each numeric. -/
def BboxStoredShape (j : Json) : Prop :=
  ∃ a b c d : ℚ,
    j = Json.obj [("x", Json.num a), ("y", Json.num b),
                  ("width", Json.num c), ("height", Json.num d)]

theorem setAnalysisFirst_bbox (rows : List Detection) (id : Nat) (a : String) :
    (setAnalysisFirst rows id a).map (fun d => d.bbox)
      = rows.map (fun d => d.bbox) := by
  induction rows with
  | nil => rfl
  | cons d ds ih =>
      by_cases hid : d.id == id
      · simp [setAnalysisFirst, hid]
      · simp [setAnalysisFirst, hid, ih]

/-- C10: in every store state reachable from initialization, every stored
record's `bbox` column holds a JSON mapping with exactly the four keys
`x`, `y`, `width`, `height`, each mapped to a number — create always writes
this shape and the annotation update never alters it. -/
theorem c10_bbox_invariant (s : Store) (hs : Reachable s) :
    ∀ d ∈ s.rows, BboxStoredShape d.bbox := by
  induction hs with
  | init => intro d hd; simp [Store.empty] at hd
  | createStep s input now c h ih =>
      cases c with
      | error msg => exact ih
      | ok u =>
          intro d hd
          simp only [create_detection] at hd
          rcases List.mem_append.mp hd with h1 | h2
          · exact ih d h1
          · rw [List.mem_singleton] at h2
            subst h2
            exact ⟨input.bbox.x, input.bbox.y, input.bbox.width, input.bbox.height, rfl⟩
  | updateStep s id a c h ih =>
      cases hf : s.rows.find? (fun d => d.id == id) with
      | none =>
          intro d hd
          simp only [update_gemini_analysis, hf] at hd
          exact ih d hd
      | some d0 =>
          cases c with
          | error msg =>
              intro d hd
              simp only [update_gemini_analysis, hf] at hd
              exact ih d hd
          | ok u =>
              intro d hd
              simp only [update_gemini_analysis, hf] at hd
              have hbb : d.bbox ∈ (setAnalysisFirst s.rows id a).map (fun e => e.bbox) :=
                List.mem_map_of_mem _ hd
              rw [setAnalysisFirst_bbox] at hbb
              rcases List.mem_map.mp hbb with ⟨e, he, hbe⟩
              rw [← hbe]
              exact ih e he

/-- Witness for C10: the store after one successful create is reachable and
its single row's stored `bbox` has the required shape. -/
theorem c10_bbox_invariant_witness :
    (Reachable (create_detection Store.empty sampleInput 0 (.ok ())).2 ∧
      sampleRow ∈ (create_detection Store.empty sampleInput 0 (.ok ())).2.rows) ∧
    BboxStoredShape sampleRow.bbox := by
  have hr : Reachable (create_detection Store.empty sampleInput 0 (.ok ())).2 :=
    Reachable.createStep Store.empty sampleInput 0 (.ok ()) Reachable.init
  have hm : sampleRow ∈ (create_detection Store.empty sampleInput 0 (.ok ())).2.rows := by
    simp [create_detection, Store.empty, sampleRow]
  exact ⟨⟨hr, hm⟩, c10_bbox_invariant _ hr sampleRow hm⟩

end DBService
